import Mathlib

/-!
# Verification of the MyTank application framework

A shallow embedding, in Lean 4, of the parts of the repository that the
specification's checkable claims are about:

* `arduino/app_utils/slidingwindowbuffer.py` — the sliding-window ring buffer
  (`SlidingWindowBuffer.push`);
* `arduino/app_internal/pipeline/limiter.py` — the asynchronous rate limiter
  (`AsyncRateLimiter.wait`);
* `arduino/app_utils/bridge.py` — the MessagePack-RPC bridge (`ClientServer.call`
  timeout path, `ClientServer._handle_msg` response dispatch, `SingletonMeta`);
* `arduino/app_utils/app.py` and `arduino/app_utils/utils.py` — the application
  controller (`AppController.run`, `AppController._start`, `_has_callable_method`);
* `arduino/app_internal/pipeline/pipeline.py` and `task.py` — the pipeline
  builder, `Pipeline.start`, and the stage tasks.

Python dicts keyed by small integers are modelled as functions into `Option`,
Python exceptions as `Except` values, machine time (for the rate limiter) as
exact rationals, and NumPy arrays as a record of dtype, item shape and the list
of items.  Each definition cites the source lines it translates.
-/

set_option autoImplicit false

namespace MyTank

/-! ## Sliding-window buffer (`arduino/app_utils/slidingwindowbuffer.py`)

`SlidingWindowBuffer` stores items in a preallocated ring (`np.empty`, line 79).
We model the ring as a list of `Option Int` cells of length `capacity`: a cell
is `none` while it has never been written (the arbitrary contents of `np.empty`)
and `some v` once `push` has stored an item `v` in it.  A pushed NumPy array is
modelled by its dtype string, its item shape (`data.shape[1:]`) and its list of
items (`len(data)` items, each abstracted as an `Int`). -/

/-- A NumPy array as seen by `SlidingWindowBuffer.push`: its `dtype`, the shape
of each item (`data.shape[1:]`), and the sequence of items it carries. -/
structure NpArray where
  dtype : String
  itemShape : List Nat
  items : List Int
  deriving Repr, DecidableEq

/-- The exceptions `SlidingWindowBuffer.push` can raise
(slidingwindowbuffer.py lines 81 and 83). -/
inductive PushErr where
  | typeError (msg : String)
  | valueError (msg : String)
  deriving Repr, DecidableEq

/-- The mutable state of a `SlidingWindowBuffer`
(slidingwindowbuffer.py lines 38-52).  `buffer = none` until the first
successful non-empty push lazily allocates the ring; `dtypeRec`/`shapeRec`
record `self._dtype` and the item shape `self._buffer.shape[1:]`. -/
structure SWB where
  window_size : Nat
  slide_amount : Nat
  capacity : Nat
  buffer : Option (List (Option Int))
  dtypeRec : Option String
  shapeRec : Option (List Nat)
  write_index : Nat
  read_index : Nat
  data_count : Nat
  new_data_count : Nat
  deriving Repr, DecidableEq

/-- The ring cells of the buffer; an unallocated buffer reads as all-unwritten
cells. -/
def SWB.cells (st : SWB) : List (Option Int) :=
  st.buffer.getD (List.replicate st.capacity none)

/-- The in-place slice assignment `buffer[start : start + len(xs)] = xs`
for the no-wrap case (slidingwindowbuffer.py line 92). -/
def writeSlice (buf : List (Option Int)) (start : Nat) (xs : List Int) :
    List (Option Int) :=
  buf.take start ++ xs.map some ++ buf.drop (start + xs.length)

/-- `SlidingWindowBuffer.push` (slidingwindowbuffer.py lines 54-109), given an
already-allocated ring `buf` after the lazy-initialization / type checks.
Performs the overflow check (lines 84-86), the possibly wrapped write
(lines 88-99) and the index/count updates (lines 101-103). -/
def pushWrite (st : SWB) (buf : List (Option Int)) (data : NpArray) :
    SWB × Bool :=
  let n := data.items.length
  if st.capacity < st.data_count + n then
    -- line 84-86: buffer overflow, reject the whole batch
    (st, false)
  else
    let endIdx := st.write_index + n
    let buf' :=
      if endIdx ≤ st.capacity then
        -- line 90-92: no wrap-around, write directly
        writeSlice buf st.write_index data.items
      else
        -- line 93-99: wrap-around, write in two parts
        let part1 := st.capacity - st.write_index
        let buf1 := buf.take st.write_index ++ (data.items.take part1).map some
        let part2 := n - part1
        (data.items.drop part1).map some ++ buf1.drop part2
    ({ st with
        buffer := some buf'
        write_index := (st.write_index + n) % st.capacity
        data_count := st.data_count + n
        new_data_count := st.new_data_count + n }, true)

/-- `SlidingWindowBuffer.push` (slidingwindowbuffer.py lines 54-109).
Returns `Except` to model the `TypeError` / `ValueError` raises; on `.ok`
it returns the new buffer state and the boolean result of `push`. -/
def push (st : SWB) (data : NpArray) : Except PushErr (SWB × Bool) :=
  let n := data.items.length
  if n = 0 then
    -- lines 69-71: empty batch returns True before touching any state
    .ok (st, true)
  else
    match st.buffer with
    | none =>
        -- lines 74-79: lazily allocate the ring, record dtype and item shape
        let stInit : SWB :=
          { st with
              buffer := some (List.replicate st.capacity none)
              dtypeRec := some data.dtype
              shapeRec := some data.itemShape }
        .ok (pushWrite stInit (List.replicate st.capacity none) data)
    | some buf =>
        if some data.dtype ≠ st.dtypeRec then
          -- line 80-81: dtype mismatch raises TypeError
          .error (.typeError "Inconsistent item type")
        else if some data.itemShape ≠ st.shapeRec then
          -- line 82-83: item-shape mismatch raises ValueError
          .error (.valueError "Inconsistent item shape")
        else
          .ok (pushWrite st buf data)

/-- Reading `n` logical cells of the ring starting at position `start`
(indices taken modulo the capacity `cap`). -/
def ringRead (buf : List (Option Int)) (cap start n : Nat) : List (Option Int) :=
  (List.range n).map (fun i => buf.getD ((start + i) % cap) none)

/-! ## Rate limiter (`arduino/app_internal/pipeline/limiter.py`)

`AsyncRateLimiter.wait` (lines 19-27) reads the monotonic clock, computes
`wait_time = min_interval - (now - last_call_time)`, sleeps that long when it
is positive, and records a fresh clock reading as the new `last_call_time`.
Time is modelled by exact rationals (Python uses floats, an idealization the
spec's monotone-spacing guarantee is stated over).  The `asyncio.Lock` held
across the body serializes callers, so we model a run of `wait` invocations as
a sequence where each invocation's clock read happens at or after the previous
completion: invocation `i+1` reads the clock at `completion_i + delay` for some
`delay ≥ 0`.  The final clock re-read after the sleep may land later than the
requested wake-up by some scheduler `jitter ≥ 0`. -/

/-- `self._min_interval = 1.0 / calls_per_second` (limiter.py line 15). -/
def minInterval (calls_per_second : Nat) : ℚ := 1 / (calls_per_second : ℚ)

/-- One execution of `AsyncRateLimiter.wait` (limiter.py lines 19-27): `last`
is `self._last_call_time`, `now` the value of `time.monotonic()` read on entry
(line 22) and `jitter ≥ 0` the extra delay of the final clock re-read
(line 27) past the earliest possible instant.  Returns the recorded completion
time, which becomes the new `last_call_time`. -/
def rlWait (mi last now jitter : ℚ) : ℚ :=
  let elapsed := now - last
  let waitTime := mi - elapsed
  if 0 < waitTime then now + waitTime + jitter else now + jitter

/-- A serialized run of `wait` invocations.  Each list entry `(delay, jitter)`
describes one invocation: its entry clock read happens `delay ≥ 0` after the
previous completion (the lock admits it only then), and its final clock re-read
lags by `jitter ≥ 0`.  Returns the list of completion times. -/
def rlRun (mi : ℚ) : ℚ → List (ℚ × ℚ) → List ℚ
  | _, [] => []
  | last, (d, j) :: rest =>
      let c := rlWait mi last (last + d) j
      c :: rlRun mi c rest

/-! ## RPC bridge (`arduino/app_utils/bridge.py`)

The `callbacks` dict (`msgid -> (on_result, on_error)`, line 279) is modelled
as a function `Nat → Option Unit`: the claims only need presence of an entry,
not the identity of the two continuations.  What the response dispatcher does
with a popped entry is recorded as a `RespAction`. -/

/-- `ROUTE_ALREADY_EXISTS_ERR = 0x05` (bridge.py line 22). -/
def ROUTE_ALREADY_EXISTS_ERR : Nat := 0x05

/-- The callbacks map: which msgids currently have a registered
`(on_result, on_error)` pair. -/
def Callbacks := Nat → Option Unit

/-- `dict.pop(msgid, None)`: the popped entry (if any) and the map without it. -/
def cbPop (cbs : Callbacks) (msgid : Nat) : Option Unit × Callbacks :=
  (cbs msgid, fun k => if k = msgid then none else cbs k)

/-- What `_handle_msg` does with a response frame (bridge.py lines 539-562). -/
inductive RespAction where
  /-- `on_result(r)` was invoked with payload `r`. -/
  | calledOnResult (r : Option Int)
  /-- `on_error(e)` was invoked with the error pair `e`. -/
  | calledOnError (e : Nat × String)
  /-- No callback was registered: the frame is logged and dropped
  (bridge.py line 561-562). -/
  | droppedUnknown
  deriving Repr, DecidableEq

/-- The `msg_type == 1` branch of `ClientServer._handle_msg`
(bridge.py lines 539-562) for a well-formed response frame
`[1, msgid, error, result]`: pop the callback for `msgid`; if absent, log and
drop; otherwise route to `on_result` or `on_error`, rewriting the
`ROUTE_ALREADY_EXISTS_ERR` error to a successful outcome (lines 553-556). -/
def handleResponse (cbs : Callbacks) (msgid : Nat) (error : Option (Nat × String))
    (result : Option Int) : Callbacks × RespAction :=
  let (popped, cbs') := cbPop cbs msgid
  match popped with
  | none => (cbs', .droppedUnknown)
  | some _ =>
      if result = none ∧ error = none then
        (cbs', .calledOnResult none)                  -- line 550-551
      else if result ≠ none ∨ (∃ e, error = some e ∧ e.1 = ROUTE_ALREADY_EXISTS_ERR) then
        (cbs', .calledOnResult result)                -- line 555-556
      else
        match error with
        | some e => (cbs', .calledOnError e)          -- line 557-558
        | none => (cbs', .calledOnResult none)        -- line 559-560 (unreachable here)

/-- The outcome of the `except queue.Empty` branch of `ClientServer.call`
(bridge.py lines 343-351): the callbacks map afterwards, the notification
frames handed to `_send_bytes` (method name and params), and whether
`TimeoutError` was raised. -/
structure CallTimeoutOut where
  callbacks : Callbacks
  notificationsSent : List (String × List Nat)
  raisedTimeout : Bool

/-- The timeout path of `ClientServer.call` (bridge.py lines 343-351): pop the
callback for the allocated `msgid`; when one was still registered, send the
best-effort `"$/cancelRequest"` notification carrying the msgid
(`self.notify("$/cancelRequest", msgid)`, line 348); in every case raise
`TimeoutError` (line 351). -/
def callTimeoutPath (cbs : Callbacks) (msgid : Nat) : CallTimeoutOut :=
  let (popped, cbs') := cbPop cbs msgid
  match popped with
  | some _ => ⟨cbs', [("$/cancelRequest", [msgid])], true⟩
  | none => ⟨cbs', [], true⟩

/-! ### Singleton construction (`SingletonMeta`, `ClientServer.__init__`)

`SingletonMeta.__call__` (bridge.py lines 264-272) keeps a single `_instance`:
the constructor body runs only for the first construction, and every later
construction — whatever its arguments — returns that first instance.
`ClientServer.__init__` (lines 276-300) resolves the peer address once, from
`os.environ.get("APP_SOCKET", address)` via `urlparse`. -/

/-- The resolved peer address (bridge.py lines 286-291). -/
inductive PeerAddr where
  /-- `unix://` scheme: `self._peer_addr = urlparsed.path`. -/
  | unixPath (path : String)
  /-- `tcp://` scheme: `self._peer_addr = (hostname, port)`. -/
  | tcpHostPort (host : String) (port : Nat)
  deriving Repr, DecidableEq

/-- The address-relevant state of a constructed `ClientServer` instance. -/
structure CSInst where
  socketType : Option String
  peerAddr : Option PeerAddr
  deriving Repr, DecidableEq

/-- Splitting a character list at the colon separating host and port. -/
def splitAtColon (cs : List Char) : List Char × List Char :=
  match cs with
  | [] => ([], [])
  | c :: rest =>
      if c = ':' then ([], rest)
      else
        let (h, p) := splitAtColon rest
        (c :: h, p)

/-- Decimal parse of a port string, as `int` does on `urlparse(...).port`. -/
def charsToNat (cs : List Char) : Nat :=
  cs.foldl (fun n c => n * 10 + (c.toNat - 48)) 0

/-- `urlparse` restricted to the two accepted schemes, feeding
`ClientServer.__init__` lines 285-291 (string slicing is performed on the
underlying character list).  For any other scheme neither `socket_type` nor
`_peer_addr` is assigned. -/
def resolveAddress (addressConfig : String) : CSInst :=
  let cs := addressConfig.data
  if "unix://".data.isPrefixOf cs then
    { socketType := some "unix"
      peerAddr := some (.unixPath ⟨cs.drop 7⟩) }
  else if "tcp://".data.isPrefixOf cs then
    let rest := cs.drop 6
    let (h, p) := splitAtColon rest
    { socketType := some "tcp", peerAddr := some (.tcpHostPort ⟨h⟩ (charsToNat p)) }
  else
    { socketType := none, peerAddr := none }

/-- `ClientServer.__init__` address resolution (bridge.py lines 284-291):
the `APP_SOCKET` environment variable overrides the `address` argument. -/
def clientServerInit (appSocketEnv : Option String) (address : String) : CSInst :=
  resolveAddress (appSocketEnv.getD address)

/-- `SingletonMeta.__call__` (bridge.py lines 268-272): construct the instance
only if `_instance` is `None`, then return `_instance` — the address argument
of any later construction is ignored. -/
def singletonCall (appSocketEnv : Option String) (inst : Option CSInst)
    (address : String) : Option CSInst × CSInst :=
  match inst with
  | some i => (some i, i)
  | none =>
      let i := clientServerInit appSocketEnv address
      (some i, i)

/-! ## Application controller (`arduino/app_utils/app.py`, `utils.py`)

Bricks are identified by a `Brick` record carrying the methods visible on the
instance: each method has a name, the parameter list of its underlying
function (including `self` for bound methods, as exposed by
`method.__func__` in `_has_callable_method`), and the out-of-band
`_is_loop` / `_is_execute` markers. -/

/-- A method of a brick as inspected by `_discover_runnable_methods` and
`_has_callable_method`: its name, the parameter names of its underlying
function, and the decorator markers. -/
structure PyMethod where
  name : String
  params : List String
  markedLoop : Bool
  markedExecute : Bool
  deriving Repr, DecidableEq

/-- A user brick: an id (object identity) plus the methods `dir(brick)`
exposes, in `dir`'s (sorted) order. -/
structure Brick where
  id : Nat
  methods : List PyMethod
  deriving Repr, DecidableEq

/-- `_has_callable_method(obj, name)` (utils.py lines 8-65) applied to a
method that exists and is callable: returns `true` when the underlying
function's only parameter is named `self`, and raises `TypeError` otherwise
(wrong name, more than one parameter, or no parameters at all). -/
def hasCallableMethod (m : PyMethod) : Except String Bool :=
  match m.params with
  | [p] =>
      if p = "self" then .ok true
      else .error ("Method " ++ m.name ++ " has an invalid signature: wrong parameter name")
  | [] => .error ("Method " ++ m.name ++ " has an invalid signature: no parameters")
  | _ => .error ("Method " ++ m.name ++ " has an invalid signature: too many parameters")

/-- Whether `_discover_runnable_methods` classifies `m` as a loop method
(app.py line 152): marked `@loop` or named `loop`. -/
def isLoopMethod (m : PyMethod) : Bool := m.markedLoop || m.name = "loop"

/-- Whether `_discover_runnable_methods` classifies `m` as an execute method
(app.py line 153). -/
def isExecuteMethod (m : PyMethod) : Bool := m.markedExecute || m.name = "execute"

/-- `AppController._discover_runnable_methods` (app.py lines 141-164): walk the
brick's attributes; for each loop/execute candidate, validate its signature
with `_has_callable_method` — whose `TypeError` propagates — and collect the
validated methods with their type (`"loop"` wins over `"execute"`, line 157). -/
def discoverRunnableMethods : List PyMethod → Except String (List (PyMethod × String))
  | [] => .ok []
  | m :: rest =>
      if isLoopMethod m || isExecuteMethod m then
        match hasCallableMethod m with
        | .error e => .error e
        | .ok true => do
            let tail ← discoverRunnableMethods rest
            .ok ((m, if isLoopMethod m then "loop" else "execute") :: tail)
        | .ok false => discoverRunnableMethods rest
      else
        discoverRunnableMethods rest

/-- The controller's brick queues (app.py lines 29-30). -/
structure AppState where
  waiting : List Brick
  running : List Brick
  deriving Repr, DecidableEq

/-- The body of `AppController._start` inside its `try` (app.py lines 173-196):
validate/call `start()` if present, discover the runnable methods (signature
`TypeError`s propagate out of the body), spawn a worker per runnable method,
and append the brick to the running queue.  Returns the new state and the
number of worker threads spawned. -/
def startBody (st : AppState) (b : Brick) : Except String (AppState × Nat) := do
  let startMeth := b.methods.find? (fun m => m.name = "start")
  match startMeth with
  | some m => let _ ← hasCallableMethod m   -- line 174: may raise TypeError
  | none => pure ()
  let rs ← discoverRunnableMethods b.methods  -- line 178
  .ok ({ st with running := st.running ++ [b] }, rs.length)

/-- `AppController._start` (app.py lines 166-199): the whole body runs inside
`try: ... except Exception as e: logger.exception(...)` — any error, including
the signature `TypeError`s from `_has_callable_method`, is logged and swallowed
and the controller continues.  Returns the (possibly unchanged) state together
with the list of logged error messages. -/
def appStart (st : AppState) (b : Brick) : AppState × List String :=
  if st.running.any (fun r => r.id = b.id) then
    (st, [])   -- line 168-171: already running, warn and return
  else
    match startBody st b with
    | .ok (st', _) => (st', [])
    | .error e => (st, [e])   -- lines 197-199: log-and-continue

/-- An exception reaching `AppController.run`'s frame: the terminal signals
`StopIteration` and `KeyboardInterrupt` that `AppController.loop` catches
(app.py lines 122-125), and any other exception — from the user loop, or the
`TypeError` that `_has_callable_method` raises out of `_stop`
(app.py line 212). -/
inductive AppExc where
  | stopIteration
  | keyboardInterrupt
  | otherExc (msg : String)
  deriving Repr, DecidableEq

/-- `AppController.loop` (app.py lines 106-125): `user_loop()` is called in an
infinite loop, so control leaves `loop` through the first exception the user
loop raises; `StopIteration` and `KeyboardInterrupt` are caught and logged,
every other exception propagates. -/
def appLoop (exc : AppExc) : Except AppExc Unit :=
  match exc with
  | .stopIteration => .ok ()
  | .keyboardInterrupt => .ok ()
  | .otherExc m => .error (.otherExc m)

/-- `AppController._start_managed_bricks` (app.py lines 127-132): drain the
waiting queue in FIFO order, `_start`ing each brick (errors logged, not
raised). -/
def startManagedBricks (st : AppState) : AppState × List String :=
  st.waiting.foldl
    (fun (acc : AppState × List String) b =>
      let (st', errs) := appStart { acc.1 with waiting := [] } b
      (st', acc.2 ++ errs))
    ({ st with waiting := [] }, [])

/-- Whether a brick's `stop` attribute, if any, has the `self`-only signature
`_has_callable_method` accepts. -/
def stopSigOk (b : Brick) : Bool :=
  match b.methods.find? (fun m => m.name = "stop") with
  | some m => m.params = ["self"]
  | none => true

/-- `AppController._stop` (app.py lines 201-229): a brick not in the running
queue is only warned about (lines 203-206).  Otherwise
`_has_callable_method(brick, "stop")` runs at line 212 **outside any try**, so
its `TypeError` for a malformed `stop` signature propagates; the `brick.stop()`
call itself is wrapped and its exceptions swallowed (lines 213-217); the
worker threads are joined with warned-and-ignored timeouts (lines 219-224);
finally the brick is removed from the running queue (lines 226-227).  Brick
identity (`in`/`remove`) is object identity, modelled by `Brick.id`; the
controller never holds two bricks of one identity in the queue. -/
def appStop (st : AppState) (b : Brick) : Except AppExc AppState :=
  if ¬st.running.any (fun r => r.id = b.id) then
    .ok st
  else
    match b.methods.find? (fun m => m.name = "stop") with
    | some m =>
        match hasCallableMethod m with
        | .error e => .error (.otherExc e)   -- line 212: TypeError, uncaught
        | .ok _ =>
            .ok { st with running := st.running.filter (fun r => ¬r.id = b.id) }
    | none =>
        .ok { st with running := st.running.filter (fun r => ¬r.id = b.id) }

/-- The loop of `AppController._stop_all_bricks` over the snapshot
`list(self._running_queue)` taken at entry: `_stop` each brick; an exception
from `_stop` aborts the loop and propagates. -/
def stopBricksLoop : AppState → List Brick → Except AppExc AppState
  | st, [] => .ok st
  | st, b :: rest => do
      let st' ← appStop st b
      stopBricksLoop st' rest

/-- `AppController._stop_all_bricks` (app.py lines 134-139): stop every
running brick in reverse insertion order; there is no handler around `_stop`,
so its exceptions propagate to the caller. -/
def stopAllBricks (st : AppState) : Except AppExc AppState :=
  stopBricksLoop st st.running.reverse

/-- `AppController.run` (app.py lines 90-104): start the managed bricks, run
`loop(user_loop)`, then — only if `loop` returned — `_stop_all_bricks`.  There
is no `try`/`finally` anywhere in `run`, so an exception propagating out of
`loop` leaves `run` before `_stop_all_bricks` is reached, and an exception out
of `_stop_all_bricks` (the line-212 `TypeError`) also propagates. -/
def appRun (st : AppState) (exc : AppExc) : Except AppExc AppState :=
  let (st1, _) := startManagedBricks st
  match appLoop exc with
  | .ok _ => stopAllBricks st1         -- line 103
  | .error e => .error e               -- propagates out of run()

/-! ## Pipeline builder (`arduino/app_internal/pipeline/pipeline.py`)

`add_source` / `add_processor` / `add_sink` (lines 28-78) append a
`SourceTask` / `ProcessorTask` / `SinkTask` to `self._steps` after their
topology checks; `start` (lines 80-113) refuses fewer than 2 stages.  Bricks
whose adapter construction succeeds are assumed (the claims under study are
about the topology, not about adapter classification). -/

/-- The kind of a stage task in `Pipeline._steps`. -/
inductive StageKind where
  | source
  | processor
  | sink
  deriving Repr, DecidableEq

/-- The builder-relevant state of a `Pipeline` (pipeline.py lines 21, 26). -/
structure PipelineSt where
  steps : List StageKind
  running : Bool
  deriving Repr, DecidableEq

/-- `Pipeline.add_source` (pipeline.py lines 28-42). -/
def addSource (p : PipelineSt) : Except String PipelineSt :=
  if p.running then .error "Cannot add bricks while pipeline is running."
  else if p.steps ≠ [] then .error "Source must be the first brick added."
  else .ok { p with steps := p.steps ++ [.source] }

/-- `Pipeline.add_processor` (pipeline.py lines 44-60). -/
def addProcessor (p : PipelineSt) : Except String PipelineSt :=
  if p.running then .error "Cannot add bricks while pipeline is running."
  else if p.steps = [] then .error "Cannot add processor before a source."
  else if p.steps.getLast? = some .sink then .error "Cannot add processor after a sink."
  else .ok { p with steps := p.steps ++ [.processor] }

/-- `Pipeline.add_sink` (pipeline.py lines 62-78). -/
def addSink (p : PipelineSt) : Except String PipelineSt :=
  if p.running then .error "Cannot add bricks while pipeline is running."
  else if p.steps = [] then .error "Cannot add sink before a source."
  else if p.steps.getLast? = some .sink then .error "Cannot add sink after another sink."
  else .ok { p with steps := p.steps ++ [.sink] }

/-- The validation performed by `Pipeline.start` (pipeline.py lines 80-113):
an already-running pipeline returns with only a warning (lines 82-84); with
fewer than 2 stages `ValueError("Pipeline must have at least a source and a
sink.")` is raised (lines 87-88); otherwise the event loop is launched and the
pipeline is marked running.  (The 10-second loop-readiness wait is an
environment failure mode, not part of the validated topology.) -/
def pipelineStart (p : PipelineSt) : Except String PipelineSt :=
  if p.running then .ok p
  else if p.steps.length < 2 then
    .error "Pipeline must have at least a source and a sink."
  else .ok { p with running := true }

/-- `Pipeline.stop` (pipeline.py lines 115-153): marks the pipeline not
running (it does not modify `_steps`). -/
def pipelineStop (p : PipelineSt) : PipelineSt :=
  if p.running then { p with running := false } else p

/-- The pipeline states reachable through the public builder API, starting
from `Pipeline()` (empty steps, not running). -/
inductive PipelineReachable : PipelineSt → Prop where
  | init : PipelineReachable ⟨[], false⟩
  | src {p q} : PipelineReachable p → addSource p = .ok q → PipelineReachable q
  | proc {p q} : PipelineReachable p → addProcessor p = .ok q → PipelineReachable q
  | snk {p q} : PipelineReachable p → addSink p = .ok q → PipelineReachable q
  | strt {p q} : PipelineReachable p → pipelineStart p = .ok q → PipelineReachable q
  | stp {p} : PipelineReachable p → PipelineReachable (pipelineStop p)

/-- Zero or more processors optionally terminated by a single sink. -/
def procsThenOptSink : List StageKind → Bool
  | [] => true
  | [.sink] => true
  | .processor :: rest => procsThenOptSink rest
  | _ => false

/-- A step list of the shape `source :: processors* ++ (sink?)`: exactly one
source, first; at most one sink, last if present. -/
def validSteps : List StageKind → Bool
  | [] => true
  | .source :: rest => procsThenOptSink rest
  | _ => false

/-! ## Stage tasks (`arduino/app_internal/pipeline/task.py`)

task.py binds the module-level name `logger = Logger("pipeline.task")`
(line 12) but every call site in the file uses the name `log`
(`log.debug`, `log.info`, …).  `log` is bound neither in the module's global
namespace nor in Python's builtins, so the first such call raises
`NameError: name 'log' is not defined`.  The embedding makes that name lookup
explicit. -/

/-- The names bound in the module namespace of task.py: the imports of
lines 5-10 and the assignments/definitions of lines 12-141. -/
def taskModuleNames : List String :=
  ["asyncio", "Generic", "Optional", "FutureCancelledError", "_SHUTDOWN",
   "T_IN", "T_OUT", "AsyncBrickAdapter", "AsyncProcessorAdapter",
   "AsyncSinkAdapter", "Logger", "logger",
   "PipelineTask", "SourceTask", "ProcessorTask", "SinkTask"]

/-- The Python exceptions arising in the task/pipeline embedding. -/
inductive PyExc where
  | nameError (name : String)
  | runtimeError (msg : String)
  deriving Repr, DecidableEq

/-- Evaluating a call `log.debug(...)` / `log.info(...)` in task.py: resolving
the free name `log` against the module globals (builtins define no `log`)
raises `NameError` when it is unbound. -/
def taskLogCall : Except PyExc Unit :=
  if taskModuleNames.contains "log" then .ok () else .error (.nameError "log")

/-- `PipelineTask.start` (task.py lines 31-44) for a task whose loop has been
set and whose run task has not been created yet: after the loop check it
executes `log.debug(...)` (line 35), then awaits `adapter.start()` (line 36),
then creates the run task and executes `log.debug(...)` again (line 42). -/
def pipelineTaskStart (loopSet : Bool) (adapterStart : Except PyExc Unit) :
    Except PyExc Unit := do
  if !loopSet then throw (.runtimeError "Event loop not set")
  taskLogCall       -- line 35
  adapterStart      -- line 36
  taskLogCall       -- line 42
  pure ()

/-- `SourceTask._run` (task.py lines 69-95): `log.info(...)` on line 71 runs
before the `try`/`finally` of lines 75-95, so an exception there propagates
without the sentinel of line 95 ever being enqueued.  On normal operation the
loop emits every produced item in order and the `finally` appends the
`_SHUTDOWN` sentinel (modelled as `none`).  Returns the sequence of values
enqueued on the output queue, or the escaping exception. -/
def sourceTaskRun (items : List Int) : Except PyExc (List (Option Int)) := do
  taskLogCall                                -- line 71
  pure (items.map some ++ [none])            -- lines 76-83 then 93-95

/-- The while-loop body of `ProcessorTask._run` (task.py lines 113-135):
forward `process x` when non-`None`, drop it otherwise, break at the
sentinel. -/
def processorLoop (process : Int → Option Int) : List (Option Int) → List (Option Int)
  | [] => []
  | none :: _ => []                          -- line 116-118: sentinel, break
  | some x :: rest =>
      match process x with
      | some y => some y :: processorLoop process rest   -- lines 120-122
      | none => processorLoop process rest               -- line 123-124: filtered

/-- `ProcessorTask._run` (task.py lines 105-138) on the full input-queue
sequence: `log.info(...)` on line 110 precedes the loop; the `finally`
appends the sentinel downstream. -/
def processorTaskRun (process : Int → Option Int) (inputs : List (Option Int)) :
    Except PyExc (List (Option Int)) := do
  taskLogCall                                -- line 110
  pure (processorLoop process inputs ++ [none])          -- lines 136-138

/-- The while-loop body of `SinkTask._run` (task.py lines 155-173): consume
every item until the sentinel. -/
def sinkLoop : List (Option Int) → List Int
  | [] => []
  | none :: _ => []
  | some x :: rest => x :: sinkLoop rest

/-- `SinkTask._run` (task.py lines 147-175): `log.info(...)` on line 152
precedes the loop.  Returns the list of items handed to `adapter.consume`. -/
def sinkTaskRun (inputs : List (Option Int)) : Except PyExc (List Int) := do
  taskLogCall                                -- line 152
  pure (sinkLoop inputs)

/-- Starting the three steps of the S1 pipeline, in list order, as
`[await step.start() for step in self._steps]` does
(pipeline.py line 214): the first failure aborts the comprehension. -/
def startStepsS1 : Except PyExc Unit := do
  pipelineTaskStart true (.ok ())   -- SourceTask.start
  pipelineTaskStart true (.ok ())   -- ProcessorTask.start
  pipelineTaskStart true (.ok ())   -- SinkTask.start
  pure ()

/-- The items the sink would consume once the three run tasks are gathered:
the source's queue feeds the processor, whose queue feeds the sink.  If the
source's run loop dies before emitting anything (no sentinel either), the
downstream queues stay empty and the sink consumes nothing. -/
def gatherSinkItems (items : List Int) (process : Int → Option Int) : List Int :=
  match sourceTaskRun items with
  | .error _ => []
  | .ok q1 =>
      match processorTaskRun process q1 with
      | .error _ => []
      | .ok q2 =>
          match sinkTaskRun q2 with
          | .error _ => []
          | .ok consumed => consumed

/-- `Pipeline._async_run_pipeline` (pipeline.py lines 186-233) specialized to
the S1 scenario (source emitting `[1, 2, 3]` then terminal, a doubling
processor, a list-appending sink): link the queues, start the steps; a start
failure is caught by `except Exception` (line 223) and only the finally
cleanup runs, so no run task executes and the sink's list stays empty;
otherwise gather the run loops.  Returns the sink's final list. -/
def asyncRunPipelineS1 : List Int :=
  match startStepsS1 with
  | .error _ => []                                        -- line 223-224
  | .ok _ => gatherSinkItems [1, 2, 3] (fun x => some (2 * x))

/-! ## Concrete fixtures used by witnesses and counterexamples -/

/-- A freshly constructed `SlidingWindowBuffer(window_size=2, slide_amount=1,
capacity=4)` (slidingwindowbuffer.py lines 20-52). -/
def swbFresh : SWB :=
  { window_size := 2, slide_amount := 1, capacity := 4, buffer := none
    dtypeRec := none, shapeRec := none
    write_index := 0, read_index := 0, data_count := 0, new_data_count := 0 }

/-- A two-item `int16` batch of item shape `[2]`. -/
def arrA : NpArray := { dtype := "int16", itemShape := [2], items := [10, 20] }

/-- A batch whose dtype matches `arrA` but whose item shape does not. -/
def arrBadShape : NpArray := { dtype := "int16", itemShape := [3], items := [30] }

/-- A batch whose dtype differs from `arrA`. -/
def arrBadType : NpArray := { dtype := "float32", itemShape := [2], items := [40] }

/-- `swbFresh` after the first successful `push(arrA)`: ring allocated, dtype
and item shape recorded, two items stored. -/
def swbAfterFirst : SWB :=
  { window_size := 2, slide_amount := 1, capacity := 4
    buffer := some [some 10, some 20, none, none]
    dtypeRec := some "int16", shapeRec := some [2]
    write_index := 2, read_index := 0, data_count := 2, new_data_count := 2 }

/-- An example callbacks map with a single pending request, msgid 7. -/
def exCbs : Callbacks := fun k => if k = 7 then some () else none

/-- A brick whose `loop` method takes an extra parameter beyond `self` — the
signature `_has_callable_method` rejects with `TypeError`. -/
def badLoopBrick : Brick :=
  { id := 1
    methods := [{ name := "loop", params := ["self", "x"],
                  markedLoop := false, markedExecute := false }] }

/-- A brick with no methods at all. -/
def plainBrick : Brick := { id := 2, methods := [] }

/-! ## Theorems -/

/-- C10: pushing a zero-length array returns `True` and leaves the entire
buffer state unchanged — `push` returns before taking the lock or touching
any field (slidingwindowbuffer.py lines 69-71) — so in particular a
zero-length first push records no dtype or item shape and the buffer stays
uninitialized. -/
theorem push_empty_noop (st : SWB) (data : NpArray) (h : data.items = []) :
    push st data = .ok (st, true) := by
  simp [push, h]

/-- Witness for `push_empty_noop` on a fresh buffer and an empty `int16`
batch. -/
theorem push_empty_noop_witness :
    push swbFresh { dtype := "int16", itemShape := [], items := [] }
      = .ok (swbFresh, true) :=
  push_empty_noop swbFresh _ rfl

/-- C1: the S1 scenario fails on the code.  In task.py every logging call uses
the unbound name `log` (the module binds `logger`), so `PipelineTask.start`
raises `NameError` at its first statement (task.py line 35); in
`_async_run_pipeline` the list comprehension starting the steps
(pipeline.py line 214) therefore raises before any run task is created, the
`except Exception` of line 223 swallows it, and the run finishes with the
sink's list empty instead of `[2, 4, 6]`. -/
theorem s1_run_name_error :
    startStepsS1 = .error (.nameError "log") ∧
    asyncRunPipelineS1 = [] ∧
    asyncRunPipelineS1 ≠ [2, 4, 6] := by
  refine ⟨rfl, rfl, ?_⟩ ; decide

/-- C3 counterexample: `SingletonMeta` keeps one process-wide `_instance`
regardless of the constructor's address argument (bridge.py lines 264-272).
Constructing first with `unix:///tmp/a.sock` and then with
`unix:///tmp/b.sock` yields, for the second construction, the first instance
still bound to `/tmp/a.sock` — not an instance bound to `/tmp/b.sock`. -/
theorem singleton_not_per_address :
    ((singletonCall none ((singletonCall none none "unix:///tmp/a.sock").1)
        "unix:///tmp/b.sock").2).peerAddr = some (.unixPath "/tmp/a.sock") ∧
    ((singletonCall none ((singletonCall none none "unix:///tmp/a.sock").1)
        "unix:///tmp/b.sock").2).peerAddr ≠ some (.unixPath "/tmp/b.sock") := by
  constructor
  · rfl
  · decide

/-- C3 amended: the bridge is one process-wide singleton, not one per peer
address.  The first construction resolves its peer address from the address
it was given (with `APP_SOCKET` able to override, bridge.py line 284) and
that address then remains fixed: every later construction — whatever address
it passes — returns the first instance unchanged. -/
theorem singleton_first_binds_address (env : Option String) (inst : CSInst)
    (addr addr2 : String) :
    (singletonCall env none addr).2 = clientServerInit env addr ∧
    (singletonCall none none "unix:///tmp/a.sock").2.peerAddr
      = some (.unixPath "/tmp/a.sock") ∧
    singletonCall env (some inst) addr2 = (some inst, inst) :=
  ⟨rfl, rfl, rfl⟩

/-- C4 counterexample: a user loop raising an exception other than the
terminal signals (here a `ValueError`) propagates out of `AppController.run`
— `loop` catches only `StopIteration` and `KeyboardInterrupt`
(app.py lines 122-125) and `run` has no `try`/`finally`
(lines 90-104) — so `run` raises and `_stop_all_bricks` is never reached:
the registered brick is left running. -/
theorem run_propagates_user_exception :
    appRun { waiting := [plainBrick], running := [] } (.otherExc "ValueError")
      = .error (.otherExc "ValueError") := by
  rfl

/-- Every success of `startBody` appends exactly the started brick to the
running queue and changes nothing else. -/
theorem startBody_ok_state (st : AppState) (b : Brick) (p : AppState × Nat)
    (h : startBody st b = .ok p) :
    p.1 = { st with running := st.running ++ [b] } := by
  unfold startBody at h
  cases hfind : b.methods.find? (fun m => m.name = "start") with
  | none =>
      cases hdisc : discoverRunnableMethods b.methods with
      | error e =>
          simp [hfind, hdisc, bind, Except.bind, pure, Except.pure] at h
      | ok rs =>
          simp [hfind, hdisc, bind, Except.bind, pure, Except.pure] at h
          first
          | simp [h]
          | simp [← h]
  | some m =>
      cases hcm : hasCallableMethod m with
      | error e =>
          simp [hfind, hcm, bind, Except.bind, pure, Except.pure] at h
      | ok v =>
          cases hdisc : discoverRunnableMethods b.methods with
          | error e =>
              simp [hfind, hcm, hdisc, bind, Except.bind, pure, Except.pure] at h
          | ok rs =>
              simp [hfind, hcm, hdisc, bind, Except.bind, pure, Except.pure] at h
              first
              | simp [h]
              | simp [← h]

/-- `_start` either leaves the state unchanged (already running, or its body
raised and was logged) or appends the brick to the running queue. -/
theorem appStart_state_cases (st : AppState) (b : Brick) :
    (appStart st b).1 = st ∨
    (appStart st b).1 = { st with running := st.running ++ [b] } := by
  unfold appStart
  split_ifs with h1
  · exact Or.inl rfl
  · cases hsb : startBody st b with
    | error e => simp
    | ok p =>
        right
        simpa using startBody_ok_state st b p hsb

/-- Every brick running after `_start_managed_bricks` was already running or
was registered in the waiting queue. -/
theorem startManagedBricks_running_mem (st : AppState) (r : Brick)
    (hr : r ∈ (startManagedBricks st).1.running) :
    r ∈ st.running ∨ r ∈ st.waiting := by
  unfold startManagedBricks at hr
  suffices hgen : ∀ (l : List Brick) (acc : AppState × List String),
      r ∈ (l.foldl (fun (acc : AppState × List String) b =>
        let (st', errs) := appStart { acc.1 with waiting := [] } b
        (st', acc.2 ++ errs)) acc).1.running →
      r ∈ acc.1.running ∨ r ∈ l by
    rcases hgen st.waiting ({ st with waiting := [] }, []) hr with h | h
    · exact Or.inl h
    · exact Or.inr h
  intro l
  induction l with
  | nil =>
      intro acc hacc
      exact Or.inl hacc
  | cons b rest ih =>
      intro acc hacc
      simp only [List.foldl_cons] at hacc
      rcases ih _ hacc with h | h
      · rcases appStart_state_cases { acc.1 with waiting := [] } b with hc | hc
        · rw [hc] at h
          exact Or.inl h
        · rw [hc] at h
          simp only [List.mem_append, List.mem_singleton] at h
          rcases h with h | h
          · exact Or.inl h
          · exact Or.inr (by simp [h])
      · exact Or.inr (by simp [h])

/-- `_stop` succeeds on a brick with a well-formed (or absent) `stop`,
preserving the waiting queue and keeping only running bricks of a different
identity. -/
theorem appStop_ok (st : AppState) (b : Brick) (hsig : stopSigOk b = true) :
    ∃ st', appStop st b = .ok st' ∧ st'.waiting = st.waiting ∧
      ∀ r ∈ st'.running, r ∈ st.running ∧ ¬r.id = b.id := by
  unfold appStop
  split_ifs with h1
  · unfold stopSigOk at hsig
    cases hfind : b.methods.find? (fun m => m.name = "stop") with
    | none =>
        refine ⟨_, rfl, rfl, fun r hr => ?_⟩
        simp only [List.mem_filter] at hr
        exact ⟨hr.1, by simpa using hr.2⟩
    | some m =>
        have hparams : m.params = ["self"] := by
          rw [hfind] at hsig
          simpa using hsig
        have hcm : hasCallableMethod m = .ok true := by
          unfold hasCallableMethod
          rw [hparams]
          simp
        refine ⟨{ st with
            running := st.running.filter (fun r => ¬r.id = b.id) },
          ?_, rfl, fun r hr => ?_⟩
        · simp [hcm]
        · simp only [List.mem_filter] at hr
          exact ⟨hr.1, by simpa using hr.2⟩
  · have hmem : ∀ r ∈ st.running, ¬r.id = b.id := by
      simpa [List.any_eq_true] using h1
    exact ⟨st, rfl, rfl, fun r hr => ⟨hr, hmem r hr⟩⟩

/-- The `_stop_all_bricks` loop empties the running queue when every brick in
its snapshot has a well-formed (or absent) `stop` and the snapshot covers the
running queue. -/
theorem stopBricksLoop_ok (l : List Brick) :
    ∀ st : AppState, (∀ b ∈ l, stopSigOk b = true) →
      (∀ r ∈ st.running, ∃ b ∈ l, b.id = r.id) →
      ∃ st', stopBricksLoop st l = .ok st' ∧ st'.waiting = st.waiting ∧
        st'.running = [] := by
  induction l with
  | nil =>
      intro st _ hcov
      refine ⟨st, rfl, rfl, ?_⟩
      refine List.eq_nil_iff_forall_not_mem.mpr fun r hr => ?_
      obtain ⟨b, hb, _⟩ := hcov r hr
      simp at hb
  | cons b rest ih =>
      intro st hl hcov
      obtain ⟨st1, heq1, hw1, hrun1⟩ := appStop_ok st b (hl b (by simp))
      obtain ⟨st2, heq2, hw2, hrun2⟩ := ih st1
        (fun b' hb' => hl b' (by simp [hb']))
        (fun r hr => by
          obtain ⟨hrin, hrne⟩ := hrun1 r hr
          obtain ⟨b'', hb'', hid⟩ := hcov r hrin
          rcases List.mem_cons.mp hb'' with rfl | hmem
          · exact absurd hid.symm hrne
          · exact ⟨b'', hmem, hid⟩)
      refine ⟨st2, ?_, hw2.trans hw1, hrun2⟩
      simp [stopBricksLoop, heq1, heq2, bind, Except.bind]

/-- `_stop_all_bricks` empties the running queue when every running brick has
a well-formed (or absent) `stop`. -/
theorem stopAllBricks_ok (st : AppState)
    (h : ∀ r ∈ st.running, stopSigOk r = true) :
    ∃ st', stopAllBricks st = .ok st' ∧ st'.running = [] := by
  obtain ⟨st', heq, _, hrun⟩ := stopBricksLoop_ok st.running.reverse st
    (fun b hb => h b (List.mem_reverse.mp hb))
    (fun r hr => ⟨r, List.mem_reverse.mpr hr, rfl⟩)
  exact ⟨st', heq, hrun⟩

/-- C4 amended: for a user loop that terminates through one of the terminal
signals (`StopIteration` or `KeyboardInterrupt`), and provided every brick the
controller manages either lacks a `stop` method or has one accepting only the
receiver, `run()` propagates no exception and performs the full orderly
shutdown: `_stop_all_bricks` runs and the running queue is empty when `run`
returns.  Otherwise an exception — a non-terminal one from the user loop, or
the `TypeError` that `_stop`'s unguarded signature check (app.py line 212)
raises for a malformed `stop` — propagates out of `run()` with bricks left
running. -/
theorem run_shutdown_on_terminal_signal (st : AppState) (exc : AppExc)
    (hterm : exc = .stopIteration ∨ exc = .keyboardInterrupt)
    (hstop : ∀ b ∈ st.waiting ++ st.running, stopSigOk b = true) :
    ∃ st', appRun st exc = .ok st' ∧ st'.running = [] := by
  have hcov : ∀ r ∈ (startManagedBricks st).1.running, stopSigOk r = true := by
    intro r hr
    rcases startManagedBricks_running_mem st r hr with h | h
    · exact hstop r (List.mem_append_right _ h)
    · exact hstop r (List.mem_append_left _ h)
  obtain ⟨st', heq, hrun⟩ := stopAllBricks_ok (startManagedBricks st).1 hcov
  refine ⟨st', ?_, hrun⟩
  rcases hterm with rfl | rfl <;> simpa [appRun, appLoop] using heq

/-- Witness for `run_shutdown_on_terminal_signal`: a methodless brick
registered in the waiting queue, user loop ending in `StopIteration`. -/
theorem run_shutdown_on_terminal_signal_witness :
    ∃ st', appRun { waiting := [plainBrick], running := [] } .stopIteration
      = .ok st' ∧ st'.running = [] :=
  run_shutdown_on_terminal_signal { waiting := [plainBrick], running := [] }
    .stopIteration (Or.inl rfl) (by decide)

/-- C9: the code violates the claim.  For a brick whose `loop` method has an
extra parameter, the signature check does raise `TypeError` inside
`_discover_runnable_methods` (utils.py lines 51-58), but `AppController._start`
wraps its whole body in `try: ... except Exception: logger.exception(...)`
(app.py lines 173-199, with the comment `TODO: we should raise an exception
here`), so starting the brick surfaces nothing to the caller: the error is
only logged and the controller continues with the brick not started. -/
theorem start_swallows_signature_error :
    startBody { waiting := [], running := [] } badLoopBrick
      = .error "Method loop has an invalid signature: too many parameters" ∧
    appStart { waiting := [], running := [] } badLoopBrick
      = ({ waiting := [], running := [] },
         ["Method loop has an invalid signature: too many parameters"]) := by
  constructor <;> rfl

/-- C5 counterexample: `Pipeline.start` validates only `len(self._steps) >= 2`
(pipeline.py lines 87-88), so a pipeline built as source + processor — with no
sink — starts without raising, refuting "ends with exactly one sink". -/
theorem start_without_sink :
    addSource { steps := [], running := false }
      = .ok { steps := [.source], running := false } ∧
    addProcessor { steps := [.source], running := false }
      = .ok { steps := [.source, .processor], running := false } ∧
    pipelineStart { steps := [.source, .processor], running := false }
      = .ok { steps := [.source, .processor], running := true } ∧
    ([StageKind.source, .processor].getLast? ≠ some .sink) := by
  refine ⟨rfl, rfl, rfl, ?_⟩ ; decide

/-- C2: when no response for the allocated `msgid` was dispatched within the
timeout — so the callback registered by `call` is still in the map when
`resp_queue.get` raises `queue.Empty` — the timeout path of `ClientServer.call`
(bridge.py lines 343-351) removes the msgid's entry, hands exactly one
best-effort `"$/cancelRequest"` notification carrying the msgid to
`_send_bytes`, and raises `TimeoutError`; and a response frame with that msgid
arriving afterwards finds no callback in `_handle_msg`
(bridge.py lines 546-562), so it is logged and dropped, invoking neither
`on_result` nor `on_error`. -/
theorem call_timeout_cancels_and_drops_late_response (cbs : Callbacks)
    (msgid : Nat) (err : Option (Nat × String)) (res : Option Int)
    (h : cbs msgid = some ()) :
    (callTimeoutPath cbs msgid).callbacks msgid = none ∧
    (callTimeoutPath cbs msgid).notificationsSent = [("$/cancelRequest", [msgid])] ∧
    (callTimeoutPath cbs msgid).raisedTimeout = true ∧
    (handleResponse (callTimeoutPath cbs msgid).callbacks msgid err res).2
      = .droppedUnknown := by
  simp [callTimeoutPath, cbPop, h, handleResponse]

/-- Witness for `call_timeout_cancels_and_drops_late_response`: pending
msgid 7, late successful response with result 3. -/
theorem call_timeout_witness :
    (callTimeoutPath exCbs 7).callbacks 7 = none ∧
    (callTimeoutPath exCbs 7).notificationsSent = [("$/cancelRequest", [7])] ∧
    (callTimeoutPath exCbs 7).raisedTimeout = true ∧
    (handleResponse (callTimeoutPath exCbs 7).callbacks 7 none (some 3)).2
      = .droppedUnknown :=
  call_timeout_cancels_and_drops_late_response exCbs 7 none (some 3) rfl

/-- C7 counterexample: after a first successful push has recorded dtype
`int16` and item shape `[2]`, pushing a batch of matching dtype but item shape
`[3]` raises `ValueError`, not `TypeError`
(slidingwindowbuffer.py lines 82-83). -/
theorem push_shape_mismatch_is_value_error :
    push swbFresh arrA = .ok (swbAfterFirst, true) ∧
    push swbAfterFirst arrBadShape
      = .error (.valueError "Inconsistent item shape") := by
  constructor <;> rfl

/-- C7 amended: after the first successful push has recorded the buffer's
dtype and item shape, a subsequent push of a non-empty batch whose dtype
differs from the recorded one fails with a `TypeError`
(slidingwindowbuffer.py lines 80-81), and one whose dtype matches but whose
item shape differs fails with a `ValueError` (lines 82-83); both raises
happen before any mutation, so no buffer state changes (in the embedding an
`.error` result carries no successor state). -/
theorem push_mismatch_raises (st : SWB) (buf : List (Option Int))
    (data : NpArray) (hinit : st.buffer = some buf) (hne : data.items ≠ []) :
    (some data.dtype ≠ st.dtypeRec →
      push st data = .error (.typeError "Inconsistent item type")) ∧
    (some data.dtype = st.dtypeRec → some data.itemShape ≠ st.shapeRec →
      push st data = .error (.valueError "Inconsistent item shape")) := by
  have hlen : data.items.length ≠ 0 := by
    simpa using hne
  constructor
  · intro hd
    simp [push, hlen, hinit, hd]
  · intro hd hs
    simp [push, hlen, hinit, hd, hs]

/-- Witness for `push_mismatch_raises`: the recorded-state buffer, a
wrong-dtype batch for the first part and a wrong-shape batch hypothesis
instance. -/
theorem push_mismatch_raises_witness :
    (some arrBadType.dtype ≠ swbAfterFirst.dtypeRec →
      push swbAfterFirst arrBadType
        = .error (.typeError "Inconsistent item type")) ∧
    (some arrBadType.dtype = swbAfterFirst.dtypeRec →
      some arrBadType.itemShape ≠ swbAfterFirst.shapeRec →
      push swbAfterFirst arrBadType
        = .error (.valueError "Inconsistent item shape")) :=
  push_mismatch_raises swbAfterFirst [some 10, some 20, none, none] arrBadType
    rfl (by decide)

/-- One completion of `AsyncRateLimiter.wait` lands at least `min_interval`
after the previous recorded completion: if the wait branch fires the sleep
makes up exactly the missing part of the interval (limiter.py lines 24-26),
otherwise the interval had already elapsed. -/
theorem rlWait_ge (mi last now jitter : ℚ) (hnow : last ≤ now) (hj : 0 ≤ jitter) :
    last + mi ≤ rlWait mi last now jitter := by
  simp only [rlWait]
  split_ifs with h
  · linarith
  · push_neg at h
    linarith

/-- Lower bound on the `j`-th completion of a serialized run of `wait`: it is
at least `j + 1` intervals past the initial `last_call_time`. -/
theorem rlRun_getD_lower (mi : ℚ) (ps : List (ℚ × ℚ)) :
    ∀ (last : ℚ) (j : ℕ), (∀ p ∈ ps, 0 ≤ p.1 ∧ 0 ≤ p.2) →
      j < (rlRun mi last ps).length →
      last + ((j : ℚ) + 1) * mi ≤ (rlRun mi last ps).getD j 0 := by
  induction ps with
  | nil =>
      intro last j _ hj
      simp [rlRun] at hj
  | cons p rest ih =>
      obtain ⟨d, jt⟩ := p
      intro last j hps hj
      have hd : 0 ≤ d := (hps (d, jt) (by simp)).1
      have hjt : 0 ≤ jt := (hps (d, jt) (by simp)).2
      have hc : last + mi ≤ rlWait mi last (last + d) jt :=
        rlWait_ge mi last (last + d) jt (by linarith) hjt
      cases j with
      | zero =>
          simp only [rlRun, List.getD_cons_zero]
          push_cast
          linarith
      | succ jj =>
          have hj' : jj < (rlRun mi (rlWait mi last (last + d) jt) rest).length := by
            simpa [rlRun] using hj
          have hrec := ih (rlWait mi last (last + d) jt) jj
            (fun q hq => hps q (List.mem_cons_of_mem _ hq)) hj'
          have hexp : ((jj : ℚ) + 1 + 1) * mi = mi + ((jj : ℚ) + 1) * mi := by
            ring
          simp only [rlRun, List.getD_cons_succ]
          push_cast
          linarith

/-- Monotone spacing of completions: completion `j` is at least `j - i`
intervals after completion `i`. -/
theorem rlRun_getD_mono (mi : ℚ) (ps : List (ℚ × ℚ)) :
    ∀ (last : ℚ) (i j : ℕ), (∀ p ∈ ps, 0 ≤ p.1 ∧ 0 ≤ p.2) → i ≤ j →
      j < (rlRun mi last ps).length →
      (rlRun mi last ps).getD i 0 + ((j - i : ℕ) : ℚ) * mi
        ≤ (rlRun mi last ps).getD j 0 := by
  induction ps with
  | nil =>
      intro last i j _ _ hj
      simp [rlRun] at hj
  | cons p rest ih =>
      obtain ⟨d, jt⟩ := p
      intro last i j hps hij hj
      cases i with
      | zero =>
          cases j with
          | zero => simp
          | succ jj =>
              have hj' : jj < (rlRun mi (rlWait mi last (last + d) jt) rest).length := by
                simpa [rlRun] using hj
              have hlow := rlRun_getD_lower mi rest (rlWait mi last (last + d) jt)
                jj (fun q hq => hps q (List.mem_cons_of_mem _ hq)) hj'
              simp only [rlRun, List.getD_cons_zero, List.getD_cons_succ]
              push_cast
              linarith
      | succ ii =>
          cases j with
          | zero => omega
          | succ jj =>
              have hj' : jj < (rlRun mi (rlWait mi last (last + d) jt) rest).length := by
                simpa [rlRun] using hj
              have hrec := ih (rlWait mi last (last + d) jt) ii jj
                (fun q hq => hps q (List.mem_cons_of_mem _ hq))
                (Nat.succ_le_succ_iff.mp hij) hj'
              have hsub : jj + 1 - (ii + 1) = jj - ii := by omega
              simp only [rlRun, List.getD_cons_succ]
              rw [hsub]
              exact hrec

/-- C8: for a limiter constructed with `calls_per_second > 0` (the constructor
rejects other rates, limiter.py lines 13-14) and any serialized run of `wait`
invocations — each entering `delay ≥ 0` after the previous completion, with
scheduler lag `jitter ≥ 0` on the final clock re-read — any two completions
`i ≤ j` are at least `(j - i) / rate` apart on the monotonic clock: over `K`
consecutive completions the elapsed time is at least `(K − 1) / rate`, and
consecutive completions (`j = i + 1`) are at least `1 / rate` apart. -/
theorem rate_limiter_spacing (rate : ℕ) (hrate : 0 < rate) (last0 : ℚ)
    (ps : List (ℚ × ℚ)) (hps : ∀ p ∈ ps, 0 ≤ p.1 ∧ 0 ≤ p.2)
    (i j : ℕ) (hij : i ≤ j)
    (hj : j < (rlRun (minInterval rate) last0 ps).length) :
    (rlRun (minInterval rate) last0 ps).getD i 0
        + ((j - i : ℕ) : ℚ) * minInterval rate
      ≤ (rlRun (minInterval rate) last0 ps).getD j 0 :=
  rlRun_getD_mono (minInterval rate) ps last0 i j hps hij hj

/-- Witness for `rate_limiter_spacing`: rate 2, two immediate back-to-back
acquisitions. -/
theorem rate_limiter_spacing_witness :
    (rlRun (minInterval 2) 0 [(0, 0), (0, 0)]).getD 0 0
        + ((1 - 0 : ℕ) : ℚ) * minInterval 2
      ≤ (rlRun (minInterval 2) 0 [(0, 0), (0, 0)]).getD 1 0 :=
  rate_limiter_spacing 2 (by decide) 0 [(0, 0), (0, 0)]
    (by intro p hp; simp at hp; rcases hp with rfl | rfl <;> simp)
    0 1 (by decide) (by simp [rlRun])

/-- Appending a processor or a sink to a processors-then-optional-sink list
whose last element is not a sink preserves the shape. -/
theorem procsThenOptSink_snoc (x : StageKind)
    (hx : x = StageKind.processor ∨ x = StageKind.sink) :
    ∀ l : List StageKind, procsThenOptSink l = true →
      l.getLast? ≠ some .sink → procsThenOptSink (l ++ [x]) = true := by
  intro l
  induction l with
  | nil =>
      intro _ _
      rcases hx with rfl | rfl <;> rfl
  | cons a t ih =>
      intro h hl
      cases a with
      | source =>
          exfalso
          cases t <;> simp [procsThenOptSink] at h
      | sink =>
          cases t with
          | nil => simp at hl
          | cons b t' =>
              exfalso
              simp [procsThenOptSink] at h
      | processor =>
          have h' : procsThenOptSink t = true := by
            simpa [procsThenOptSink] using h
          have hl' : t.getLast? ≠ some .sink := by
            cases t with
            | nil => simp
            | cons b t' => simpa [List.getLast?_cons_cons] using hl
          simpa [procsThenOptSink] using ih h' hl'

/-- Appending a processor or a sink to a valid non-empty step list whose last
stage is not a sink preserves validity. -/
theorem validSteps_snoc (x : StageKind)
    (hx : x = StageKind.processor ∨ x = StageKind.sink)
    (l : List StageKind) (h : validSteps l = true) (hne : l ≠ [])
    (hl : l.getLast? ≠ some .sink) : validSteps (l ++ [x]) = true := by
  cases l with
  | nil => exact absurd rfl hne
  | cons a t =>
      cases a with
      | source =>
          have h' : procsThenOptSink t = true := by simpa [validSteps] using h
          have hl' : t.getLast? ≠ some .sink := by
            cases t with
            | nil => simp
            | cons b t' => simpa [List.getLast?_cons_cons] using hl
          simpa [validSteps] using procsThenOptSink_snoc x hx t h' hl'
      | processor => simp [validSteps] at h
      | sink => simp [validSteps] at h

/-- The builder invariant: every pipeline reachable through
`add_source`/`add_processor`/`add_sink`/`start`/`stop` has a step list of the
shape `source :: processors* ++ (sink?)`. -/
theorem reachable_validSteps {p : PipelineSt} (hp : PipelineReachable p) :
    validSteps p.steps = true := by
  induction hp with
  | init => rfl
  | src hr heq ih =>
      unfold addSource at heq
      split_ifs at heq with h1 h2
      cases heq
      simp only [not_not] at h2
      simp [h2, validSteps, procsThenOptSink]
  | proc hr heq ih =>
      unfold addProcessor at heq
      split_ifs at heq with h1 h2 h3
      cases heq
      exact validSteps_snoc .processor (Or.inl rfl) _ ih h2 h3
  | snk hr heq ih =>
      unfold addSink at heq
      split_ifs at heq with h1 h2 h3
      cases heq
      exact validSteps_snoc .sink (Or.inr rfl) _ ih h2 h3
  | strt hr heq ih =>
      unfold pipelineStart at heq
      split_ifs at heq with h1 h2
      · cases heq
        exact ih
      · cases heq
        exact ih
  | stp hr ih =>
      unfold pipelineStop
      split_ifs <;> exact ih

/-- A valid non-empty step list begins with the source. -/
theorem validSteps_head (l : List StageKind) (h : validSteps l = true)
    (hne : l ≠ []) : l.head? = some .source := by
  cases l with
  | nil => exact absurd rfl hne
  | cons a t =>
      cases a with
      | source => rfl
      | processor => simp [validSteps] at h
      | sink => simp [validSteps] at h

/-- C5 amended: for every pipeline reachable through the builder API the step
list has the shape `source :: processors* ++ (sink?)` — exactly one source,
first; at most one sink, last if present — but a sink is not required:
`Pipeline.start` validates only the stage count (pipeline.py lines 87-88), so
on a non-running pipeline it raises exactly when there are fewer than 2
stages, and whenever it returns without raising the (non-running) pipeline
has at least 2 stages beginning with the source. -/
theorem start_topology (p : PipelineSt) (hp : PipelineReachable p) :
    validSteps p.steps = true ∧
    (p.running = false → p.steps.length < 2 →
      pipelineStart p = .error "Pipeline must have at least a source and a sink.") ∧
    (∀ q, p.running = false → pipelineStart p = .ok q →
      2 ≤ p.steps.length ∧ p.steps.head? = some .source) := by
  have hv := reachable_validSteps hp
  refine ⟨hv, ?_, ?_⟩
  · intro hrun hlen
    simp [pipelineStart, hrun, hlen]
  · intro q hrun heq
    unfold pipelineStart at heq
    split_ifs at heq with h1 h2
    · exact absurd h1 (by simp [hrun])
    · have hlen : 2 ≤ p.steps.length := by omega
      refine ⟨hlen, validSteps_head _ hv ?_⟩
      intro hnil
      rw [hnil] at hlen
      simp at hlen

/-- Witness for `start_topology`: the two-stage pipeline source + sink. -/
theorem start_topology_witness :
    validSteps (⟨[.source, .sink], false⟩ : PipelineSt).steps = true ∧
    ((⟨[.source, .sink], false⟩ : PipelineSt).running = false →
      (⟨[.source, .sink], false⟩ : PipelineSt).steps.length < 2 →
      pipelineStart ⟨[.source, .sink], false⟩
        = .error "Pipeline must have at least a source and a sink.") ∧
    (∀ q, (⟨[.source, .sink], false⟩ : PipelineSt).running = false →
      pipelineStart ⟨[.source, .sink], false⟩ = .ok q →
      2 ≤ (⟨[.source, .sink], false⟩ : PipelineSt).steps.length ∧
      (⟨[.source, .sink], false⟩ : PipelineSt).steps.head? = some .source) :=
  start_topology ⟨[.source, .sink], false⟩
    (@PipelineReachable.snk ⟨[.source], false⟩ ⟨[.source, .sink], false⟩
      (@PipelineReachable.src ⟨[], false⟩ ⟨[.source], false⟩
        PipelineReachable.init rfl)
      rfl)

/-- Reading back a no-wrap slice write: the `n` ring cells starting at the
write position hold exactly the written batch. -/
theorem ringRead_writeSlice (buf : List (Option Int)) (cap start : Nat)
    (xs : List Int) (hlen : buf.length = cap) (hfit : start + xs.length ≤ cap) :
    ringRead (writeSlice buf start xs) cap start xs.length = xs.map some := by
  apply List.ext_getElem
  · simp [ringRead]
  · intro i h1 h2
    have hi : i < xs.length := by simpa [ringRead] using h1
    have htake : (buf.take start).length = start := by
      simp [List.length_take, hlen]
      omega
    have hmod : (start + i) % cap = start + i := Nat.mod_eq_of_lt (by omega)
    simp only [ringRead, List.getElem_map, List.getElem_range,
      List.getD_eq_getElem?_getD]
    rw [hmod]
    unfold writeSlice
    rw [List.getElem?_append_left (by simp [htake, List.length_map] ; omega),
      List.getElem?_append_right (by rw [htake] ; omega), htake,
      Nat.add_sub_cancel_left, List.getElem?_map,
      List.getElem?_eq_getElem hi]
    rfl

/-- Reading back a wrapped two-part write: the `n` ring cells starting at the
write position (indices modulo the capacity) hold exactly the written batch. -/
theorem ringRead_writeWrap (buf : List (Option Int)) (cap start : Nat)
    (xs : List Int) (hlen : buf.length = cap) (hstart : start < cap)
    (hover : cap < start + xs.length) (hle : xs.length ≤ cap) :
    ringRead ((xs.drop (cap - start)).map some ++
        (buf.take start ++ (xs.take (cap - start)).map some).drop
          (xs.length - (cap - start)))
      cap start xs.length = xs.map some := by
  apply List.ext_getElem
  · simp [ringRead]
  · intro i h1 h2
    have hi : i < xs.length := by simpa [ringRead] using h1
    have hxs2 : ((xs.drop (cap - start)).map some).length
        = xs.length - (cap - start) := by
      simp
    have htake : (buf.take start).length = start := by
      simp [List.length_take, hlen]
      omega
    simp only [ringRead, List.getElem_map, List.getElem_range,
      List.getD_eq_getElem?_getD]
    rcases Nat.lt_or_ge i (cap - start) with hcase | hcase
    · -- the first part of the batch lands in the upper segment of the ring
      have hmod : (start + i) % cap = start + i := Nat.mod_eq_of_lt (by omega)
      rw [hmod, List.getElem?_append_right (by rw [hxs2] ; omega), hxs2,
        List.getElem?_drop]
      have hidx : xs.length - (cap - start) + (start + i - (xs.length - (cap - start)))
          = start + i := by omega
      rw [hidx, List.getElem?_append_right (by rw [htake] ; omega), htake,
        Nat.add_sub_cancel_left, List.getElem?_map, List.getElem?_take]
      rw [if_pos hcase, List.getElem?_eq_getElem hi]
      rfl
    · -- the wrapped part of the batch lands at the bottom of the ring
      have hmod : (start + i) % cap = start + i - cap := by
        rw [Nat.mod_eq_sub_mod (by omega), Nat.mod_eq_of_lt (by omega)]
      rw [hmod, List.getElem?_append_left (by rw [hxs2] ; omega),
        List.getElem?_map, List.getElem?_drop]
      have hidx : cap - start + (start + i - cap) = i := by omega
      rw [hidx, List.getElem?_eq_getElem hi]
      rfl

/-- `pushWrite` on a fitting batch: returns `True`, advances the write index
by the batch length modulo the capacity, increments both counters by the batch
length, leaves the read index unchanged, and stores the batch in the ring
cells starting at the old write position. -/
theorem pushWrite_fits (st : SWB) (buf : List (Option Int)) (data : NpArray)
    (hblen : buf.length = st.capacity) (hwi : st.write_index < st.capacity)
    (hfit : st.data_count + data.items.length ≤ st.capacity) :
    ∃ buf', pushWrite st buf data =
      ({ st with
          buffer := some buf'
          write_index := (st.write_index + data.items.length) % st.capacity
          data_count := st.data_count + data.items.length
          new_data_count := st.new_data_count + data.items.length }, true) ∧
      ringRead buf' st.capacity st.write_index data.items.length
        = data.items.map some := by
  by_cases hwrap : st.write_index + data.items.length ≤ st.capacity
  · refine ⟨writeSlice buf st.write_index data.items, ?_, ?_⟩
    · simp only [pushWrite]
      rw [if_neg (by omega), if_pos hwrap]
    · exact ringRead_writeSlice buf st.capacity st.write_index data.items
        hblen hwrap
  · refine ⟨(data.items.drop (st.capacity - st.write_index)).map some ++
        (buf.take st.write_index ++
          (data.items.take (st.capacity - st.write_index)).map some).drop
          (data.items.length - (st.capacity - st.write_index)), ?_, ?_⟩
    · simp only [pushWrite]
      rw [if_neg (by omega), if_neg hwrap]
    · exact ringRead_writeWrap buf st.capacity st.write_index data.items
        hblen hwi (by omega) (by omega)

/-- C6: `push` is atomic.  For every buffer state satisfying the class
invariants (`data_count ≤ C`, `write_index < C`, allocated ring of length `C`)
and every batch passing the dtype/shape checks: if `data_count + len(batch)`
exceeds the capacity, `push` returns `False` and leaves the ring cells, both
indices and both counters unchanged — the overflow check
(slidingwindowbuffer.py lines 84-86) runs before any write; if the batch
fits, `push` returns `True`, the counters grow by `len(batch)`, the write
index advances by `len(batch)` modulo `C`, the read index is unchanged, and
the `len(batch)` ring cells starting at the old write position hold exactly
the batch, in order. -/
theorem push_batch_atomic (st : SWB) (data : NpArray)
    (hinv : st.data_count ≤ st.capacity)
    (hwi : st.write_index < st.capacity)
    (hblen : ∀ buf, st.buffer = some buf → buf.length = st.capacity)
    (hcompat : st.buffer = none ∨
      (some data.dtype = st.dtypeRec ∧ some data.itemShape = st.shapeRec)) :
    (st.capacity < st.data_count + data.items.length →
      ∃ st', push st data = .ok (st', false) ∧
        st'.cells = st.cells ∧
        st'.write_index = st.write_index ∧ st'.read_index = st.read_index ∧
        st'.data_count = st.data_count ∧
        st'.new_data_count = st.new_data_count) ∧
    (st.data_count + data.items.length ≤ st.capacity →
      ∃ st', push st data = .ok (st', true) ∧
        st'.capacity = st.capacity ∧
        st'.data_count = st.data_count + data.items.length ∧
        st'.new_data_count = st.new_data_count + data.items.length ∧
        st'.write_index = (st.write_index + data.items.length) % st.capacity ∧
        st'.read_index = st.read_index ∧
        ringRead st'.cells st.capacity st.write_index data.items.length
          = data.items.map some) := by
  constructor
  · intro hover
    have hn : ¬data.items.length = 0 := by omega
    cases hbuf : st.buffer with
    | none =>
        refine ⟨{ st with
            buffer := some (List.replicate st.capacity none)
            dtypeRec := some data.dtype
            shapeRec := some data.itemShape }, ?_, ?_, rfl, rfl, rfl, rfl⟩
        · simp only [push, hbuf]
          rw [if_neg hn]
          simp only [pushWrite]
          rw [if_pos (by simpa using hover)]
        · simp [SWB.cells, hbuf]
    | some buf =>
        have hds := hcompat.resolve_left (by simp [hbuf])
        refine ⟨st, ?_, rfl, rfl, rfl, rfl, rfl⟩
        simp only [push, hbuf]
        rw [if_neg hn, if_neg (by simp [hds.1]), if_neg (by simp [hds.2])]
        simp only [pushWrite]
        rw [if_pos (by simpa using hover)]
  · intro hfit
    by_cases hn : data.items.length = 0
    · refine ⟨st, ?_, rfl, by omega, by omega, ?_, rfl, ?_⟩
      · simp only [push]
        rw [if_pos hn]
      · rw [hn, Nat.add_zero, Nat.mod_eq_of_lt hwi]
      · rw [hn]
        simp [ringRead, List.length_eq_zero.mp hn]
    · cases hbuf : st.buffer with
      | none =>
          obtain ⟨buf', heq, hread⟩ := pushWrite_fits
            { st with
                buffer := some (List.replicate st.capacity none)
                dtypeRec := some data.dtype
                shapeRec := some data.itemShape }
            (List.replicate st.capacity none) data (by simp) hwi hfit
          refine ⟨{ st with
              buffer := some buf'
              dtypeRec := some data.dtype
              shapeRec := some data.itemShape
              write_index := (st.write_index + data.items.length) % st.capacity
              data_count := st.data_count + data.items.length
              new_data_count := st.new_data_count + data.items.length },
            ?_, rfl, rfl, rfl, rfl, rfl, ?_⟩
          · simp only [push, hbuf]
            rw [if_neg hn, heq]
          · simpa [SWB.cells] using hread
      | some buf =>
          have hds := hcompat.resolve_left (by simp [hbuf])
          obtain ⟨buf', heq, hread⟩ := pushWrite_fits st buf data
            (hblen buf hbuf) hwi hfit
          refine ⟨{ st with
              buffer := some buf'
              write_index := (st.write_index + data.items.length) % st.capacity
              data_count := st.data_count + data.items.length
              new_data_count := st.new_data_count + data.items.length },
            ?_, rfl, rfl, rfl, rfl, rfl, ?_⟩
          · simp only [push, hbuf]
            rw [if_neg hn, if_neg (by simp [hds.1]), if_neg (by simp [hds.2]),
              heq]
          · simpa [SWB.cells] using hread

/-- Witness for `push_batch_atomic`: a fresh buffer of capacity 4 and the
two-item batch `arrA`. -/
theorem push_batch_atomic_witness :
    (swbFresh.capacity < swbFresh.data_count + arrA.items.length →
      ∃ st', push swbFresh arrA = .ok (st', false) ∧
        st'.cells = swbFresh.cells ∧
        st'.write_index = swbFresh.write_index ∧
        st'.read_index = swbFresh.read_index ∧
        st'.data_count = swbFresh.data_count ∧
        st'.new_data_count = swbFresh.new_data_count) ∧
    (swbFresh.data_count + arrA.items.length ≤ swbFresh.capacity →
      ∃ st', push swbFresh arrA = .ok (st', true) ∧
        st'.capacity = swbFresh.capacity ∧
        st'.data_count = swbFresh.data_count + arrA.items.length ∧
        st'.new_data_count = swbFresh.new_data_count + arrA.items.length ∧
        st'.write_index
          = (swbFresh.write_index + arrA.items.length) % swbFresh.capacity ∧
        st'.read_index = swbFresh.read_index ∧
        ringRead st'.cells swbFresh.capacity swbFresh.write_index
          arrA.items.length = arrA.items.map some) :=
  push_batch_atomic swbFresh arrA (by decide) (by decide)
    (by intro buf h; simp [swbFresh] at h) (Or.inl rfl)

end MyTank
